import Mathlib

/-!
Verification of the findmeblink synchronization and animation logic.

The definitions below are a shallow embedding of `src/code.ts` (the canonical
source file). Browser-supplied inputs (`Date.now()`, `Math.random()` draws,
the query parameters of `window.location.search`, computed CSS colors) are
passed as explicit arguments; JavaScript numbers that hold epoch milliseconds
or indices are modelled as `Nat`/`Int`, with `NaN`/`undefined` modelled as
`none` of an `Option` type where the code can produce them.
-/

/-- The fixed pattern table (`PATTERNS`, code.ts lines 34-45). -/
def PATTERNS : List String :=
  ["..-..-.-..",
   ".-..-..-..",
   "...-..-.-.",
   ".-...-.-..",
   "-.-.-.-.",
   ".-.-.-.-",
   "-..-.-.-",
   "..-.-.--",
   "-----.",
   "----.-"]

/-- The fixed color table (`COLORS`, code.ts lines 47-54). -/
def COLORS : List String :=
  ["--color-secondary",
   "--color-accent",
   "--color-info",
   "--color-success",
   "--color-warning",
   "--color-error"]

/-- `Duration.BETWEEN` (code.ts line 27). -/
def Duration_BETWEEN : Nat := 100
/-- `Duration.DOT` (code.ts line 28). -/
def Duration_DOT : Nat := 250
/-- `Duration.DASH` (code.ts line 29). -/
def Duration_DASH : Nat := 750
/-- `Duration.SPACE` (code.ts line 30). -/
def Duration_SPACE : Nat := 1000

/-- The match test of the `while (true)` loop in `getNextStartTime`
(code.ts line 276-277): does epoch-second `c` end in `digit1` or `digit2`? -/
def secMatches (digit1 digit2 c : Nat) : Bool :=
  c % 10 == digit1 || c % 10 == digit2

/-- The candidate search of `getNextStartTime` (code.ts lines 272-281).
The source loop is `while (true)`; it is embedded with explicit fuel, and
`findCandidate_fuel_irrelevant` together with `exists_secMatch_within5`
shows that fuel `10` (indeed `5`) is never exhausted, so the embedding
computes exactly what the unbounded source loop computes. -/
def findCandidate (digit1 digit2 : Nat) : Nat → Nat → Nat
  | 0, c => c
  | fuel + 1, c =>
      if secMatches digit1 digit2 c then c
      else findCandidate digit1 digit2 fuel (c + 1)

/-- `getNextStartTime` (code.ts lines 265-282), with `Date.now()` injected
as the argument `now` (epoch milliseconds). -/
def getNextStartTime (digit : Nat) (now : Nat) : Nat :=
  let currentSecond := now / 1000
  let digit1 := digit % 10
  let digit2 := (digit + 5) % 10
  findCandidate digit1 digit2 10 (currentSecond + 1) * 1000

/-- Core residue fact: among the five consecutive values `r, r+1, ..., r+4`
one ends in `d` or in `(d+5) % 10` (for base residues, by computation). -/
lemma exists_secMatch_within5_res :
    ∀ d < 10, ∀ r < 10, ∃ i, i < 5 ∧ secMatches d ((d + 5) % 10) (r + i) = true := by
  decide

/-- `secMatches` only depends on the base's residue mod 10. -/
lemma secMatches_shift (d1 d2 b i : Nat) :
    secMatches d1 d2 (b + i) = secMatches d1 d2 (b % 10 + i) := by
  have h : (b + i) % 10 = (b % 10 + i) % 10 := by omega
  unfold secMatches
  rw [h]

/-- Among any five consecutive epoch seconds starting at `r`, one matches. -/
lemma exists_secMatch_within5 (d : Nat) (hd : d < 10) (r : Nat) :
    ∃ i, i < 5 ∧ secMatches d ((d + 5) % 10) (r + i) = true := by
  obtain ⟨i, hi, hm⟩ :=
    exists_secMatch_within5_res d hd (r % 10) (Nat.mod_lt _ (by omega))
  exact ⟨i, hi, by rw [secMatches_shift]; exact hm⟩

lemma findCandidate_ge (d1 d2 : Nat) :
    ∀ fuel c, c ≤ findCandidate d1 d2 fuel c := by
  intro fuel
  induction fuel with
  | zero => intro c; simp [findCandidate]
  | succ f ih =>
      intro c
      simp only [findCandidate]
      split
      · exact Nat.le_refl c
      · exact Nat.le_trans (Nat.le_succ c) (ih (c + 1))

lemma findCandidate_matches (d1 d2 : Nat) :
    ∀ fuel c, (∃ i, i < fuel ∧ secMatches d1 d2 (c + i) = true) →
      secMatches d1 d2 (findCandidate d1 d2 fuel c) = true := by
  intro fuel
  induction fuel with
  | zero => intro c ⟨i, hi, _⟩; omega
  | succ f ih =>
      intro c ⟨i, hi, hm⟩
      simp only [findCandidate]
      split
      · assumption
      · rename_i hnot
        apply ih (c + 1)
        rcases i with _ | j
        · simp only [Nat.add_zero] at hm
          exact absurd hm (by simp [hnot])
        · exact ⟨j, by omega, by have : c + 1 + j = c + (j + 1) := by omega
                                 rw [this]; exact hm⟩

lemma findCandidate_min (d1 d2 : Nat) :
    ∀ fuel c x, c ≤ x → x < findCandidate d1 d2 fuel c →
      secMatches d1 d2 x = false := by
  intro fuel
  induction fuel with
  | zero =>
      intro c x hcx hlt
      simp [findCandidate] at hlt
      omega
  | succ f ih =>
      intro c x hcx hlt
      simp only [findCandidate] at hlt
      by_cases hm : secMatches d1 d2 c = true
      · rw [if_pos hm] at hlt; omega
      · rw [if_neg hm] at hlt
        rcases Nat.eq_or_lt_of_le hcx with rfl | hgt
        · exact Bool.eq_false_iff.mpr hm
        · exact ih (c + 1) x hgt hlt

lemma findCandidate_le_of_match (d1 d2 : Nat) (fuel c i : Nat)
    (hi : i < fuel) (hm : secMatches d1 d2 (c + i) = true) :
    findCandidate d1 d2 fuel c ≤ c + i := by
  by_contra h
  have := findCandidate_min d1 d2 fuel c (c + i) (Nat.le_add_right c i)
    (by omega)
  rw [hm] at this
  exact absurd this (by simp)

lemma findCandidate_fuel_irrelevant (d1 d2 : Nat) :
    ∀ f g c, f ≤ g → (∃ i, i < f ∧ secMatches d1 d2 (c + i) = true) →
      findCandidate d1 d2 f c = findCandidate d1 d2 g c := by
  intro f
  induction f with
  | zero => intro g c _ ⟨i, hi, _⟩; omega
  | succ f' ih =>
      intro g c hfg ⟨i, hi, hm⟩
      rcases g with _ | g'
      · omega
      · simp only [findCandidate]
        split
        · rfl
        · rename_i hnot
          apply ih g' (c + 1) (by omega)
          rcases i with _ | j
          · simp only [Nat.add_zero] at hm
            exact absurd hm (by simp [hnot])
          · exact ⟨j, by omega, by have : c + 1 + j = c + (j + 1) := by omega
                                   rw [this]; exact hm⟩

/-- Helper facts shared by the scheduling theorems: the returned candidate
second is at least `now / 1000 + 1`, it matches the digit pair, and nothing
between `now / 1000 + 1` and it matches. -/
lemma getNextStartTime_core (d now : Nat) (hd : d < 10) :
    now / 1000 + 1 ≤ findCandidate d ((d + 5) % 10) 10 (now / 1000 + 1)
    ∧ secMatches d ((d + 5) % 10)
        (findCandidate d ((d + 5) % 10) 10 (now / 1000 + 1)) = true
    ∧ findCandidate d ((d + 5) % 10) 10 (now / 1000 + 1) ≤ now / 1000 + 5
    ∧ (∀ x, now / 1000 + 1 ≤ x →
        x < findCandidate d ((d + 5) % 10) 10 (now / 1000 + 1) →
        secMatches d ((d + 5) % 10) x = false) := by
  obtain ⟨i, hi, hm⟩ := exists_secMatch_within5 d hd (now / 1000 + 1)
  refine ⟨findCandidate_ge _ _ _ _, ?_, ?_, ?_⟩
  · exact findCandidate_matches _ _ 10 _ ⟨i, by omega, hm⟩
  · have := findCandidate_le_of_match d ((d + 5) % 10) 10 (now / 1000 + 1) i
      (by omega) hm
    omega
  · exact fun x hx hlt => findCandidate_min _ _ 10 _ x hx hlt

/-- For `d < 10`, `getNextStartTime` unfolds to the fuelled candidate search. -/
lemma getNextStartTime_eq (d now : Nat) (hd : d < 10) :
    getNextStartTime d now
      = findCandidate d ((d + 5) % 10) 10 (now / 1000 + 1) * 1000 := by
  unfold getNextStartTime
  rw [Nat.mod_eq_of_lt hd]

/-- C1: for every digit `d ∈ 0..9` and every instant `t`,
`getNextStartTime d` at current time `t` returns a value strictly greater
than `t`, divisible by `1000`, whose epoch-second value ends in `d` or in
`(d + 5) % 10`. -/
theorem getNextStartTime_future_aligned (d t : Nat) (hd : d ≤ 9) :
    t < getNextStartTime d t
    ∧ getNextStartTime d t % 1000 = 0
    ∧ (getNextStartTime d t / 1000 % 10 = d
       ∨ getNextStartTime d t / 1000 % 10 = (d + 5) % 10) := by
  have hd10 : d < 10 := by omega
  obtain ⟨hge, hm, _, _⟩ := getNextStartTime_core d t hd10
  rw [getNextStartTime_eq d t hd10]
  set m := findCandidate d ((d + 5) % 10) 10 (t / 1000 + 1) with hmdef
  have hdm : 1000 * (t / 1000) + t % 1000 = t := Nat.div_add_mod t 1000
  have hmod : t % 1000 < 1000 := Nat.mod_lt _ (by omega)
  refine ⟨by nlinarith, Nat.mul_mod_left m 1000, ?_⟩
  rw [Nat.mul_div_cancel m (by omega : 0 < 1000)]
  simpa [secMatches] using hm

/-- Witness for C1 at `d = 3`, `t = 12345`: the next start is `23000`. -/
theorem getNextStartTime_future_aligned_w :
    12345 < getNextStartTime 3 12345
    ∧ getNextStartTime 3 12345 % 1000 = 0
    ∧ (getNextStartTime 3 12345 / 1000 % 10 = 3
       ∨ getNextStartTime 3 12345 / 1000 % 10 = (3 + 5) % 10) :=
  getNextStartTime_future_aligned 3 12345 (by decide)

/-- C2 counterexample: the claim requires the result to be strictly greater
than `(t / 1000 + 1) * 1000` (the start of the next whole second), but for
`d = 1`, `t = 0` the code returns exactly that boundary, `1000`. -/
theorem getNextStartTime_not_strictly_after_boundary :
    ¬ ((0 / 1000 + 1) * 1000 < getNextStartTime 1 0) := by decide

/-- C2 (amended): `getNextStartTime d` at time `now` returns the smallest
instant at or after the start of the next whole second after `now` (i.e.
`≥ (now / 1000 + 1) * 1000`) whose epoch-second value ends in `d` or in
`(d + 5) % 10`. -/
theorem getNextStartTime_least (d now : Nat) (hd : d ≤ 9) :
    (now / 1000 + 1) * 1000 ≤ getNextStartTime d now
    ∧ (getNextStartTime d now / 1000 % 10 = d
       ∨ getNextStartTime d now / 1000 % 10 = (d + 5) % 10)
    ∧ (∀ m, (now / 1000 + 1) * 1000 ≤ m →
        (m / 1000 % 10 = d ∨ m / 1000 % 10 = (d + 5) % 10) →
        getNextStartTime d now ≤ m) := by
  have hd10 : d < 10 := by omega
  obtain ⟨hge, hm, _, hmin⟩ := getNextStartTime_core d now hd10
  rw [getNextStartTime_eq d now hd10]
  set c := findCandidate d ((d + 5) % 10) 10 (now / 1000 + 1) with hcdef
  refine ⟨by nlinarith, ?_, ?_⟩
  · rw [Nat.mul_div_cancel c (by omega : 0 < 1000)]
    simpa [secMatches] using hm
  · intro m hmge hmatch
    have hsec : now / 1000 + 1 ≤ m / 1000 :=
      (Nat.le_div_iff_mul_le (by omega : 0 < 1000)).mpr hmge
    have hcm : c ≤ m / 1000 := by
      by_contra hlt
      have hfalse := hmin (m / 1000) hsec (by omega)
      have htrue : secMatches d ((d + 5) % 10) (m / 1000) = true := by
        simpa [secMatches] using hmatch
      rw [htrue] at hfalse
      exact absurd hfalse (by simp)
    calc c * 1000 ≤ m / 1000 * 1000 := by nlinarith
      _ ≤ m := Nat.div_mul_le_self m 1000

/-- Residue form of the exactly-one-match count over five consecutive seconds. -/
lemma countP_secMatch_res :
    ∀ d < 10, ∀ r < 10,
      (List.range 5).countP (fun i => secMatches d ((d + 5) % 10) (r + i)) = 1 := by
  decide

/-- C9: for every digit `d ∈ 0..9` and every instant `now`, the unbounded
candidate-search loop of `getNextStartTime` terminates after examining at
most 5 candidate seconds (fuel 5 already computes the same answer as fuel
10, and among the 5 consecutive candidate seconds exactly one matches), so
the returned instant is at most `now + 5000`. -/
theorem getNextStartTime_terminates_within5 (d now : Nat) (hd : d ≤ 9) :
    getNextStartTime d now ≤ now + 5000
    ∧ findCandidate d ((d + 5) % 10) 5 (now / 1000 + 1)
        = findCandidate d ((d + 5) % 10) 10 (now / 1000 + 1)
    ∧ (List.range 5).countP
        (fun i => secMatches d ((d + 5) % 10) (now / 1000 + 1 + i)) = 1 := by
  have hd10 : d < 10 := by omega
  obtain ⟨i, hi, hm⟩ := exists_secMatch_within5 d hd10 (now / 1000 + 1)
  refine ⟨?_, ?_, ?_⟩
  · obtain ⟨_, _, hle, _⟩ := getNextStartTime_core d now hd10
    rw [getNextStartTime_eq d now hd10]
    omega
  · exact findCandidate_fuel_irrelevant d ((d + 5) % 10) 5 10 (now / 1000 + 1)
      (by omega) ⟨i, hi, hm⟩
  · have hcong : ∀ j ∈ List.range 5,
        (secMatches d ((d + 5) % 10) (now / 1000 + 1 + j) = true
          ↔ secMatches d ((d + 5) % 10) ((now / 1000 + 1) % 10 + j) = true) :=
      fun j _ => by rw [secMatches_shift d ((d + 5) % 10) (now / 1000 + 1) j]
    rw [List.countP_congr hcong]
    exact countP_secMatch_res d hd10 ((now / 1000 + 1) % 10)
      (Nat.mod_lt _ (by omega))

/-- Witness for C9 at `d = 0`, `now = 999`. -/
theorem getNextStartTime_terminates_within5_w :
    getNextStartTime 0 999 ≤ 999 + 5000
    ∧ findCandidate 0 ((0 + 5) % 10) 5 (999 / 1000 + 1)
        = findCandidate 0 ((0 + 5) % 10) 10 (999 / 1000 + 1)
    ∧ (List.range 5).countP
        (fun i => secMatches 0 ((0 + 5) % 10) (999 / 1000 + 1 + i)) = 1 :=
  getNextStartTime_terminates_within5 0 999 (by decide)

/-- Witness for C2 (amended) at `d = 1`, `now = 0`: the result is exactly the
next second boundary `1000`. -/
theorem getNextStartTime_least_w :
    (0 / 1000 + 1) * 1000 ≤ getNextStartTime 1 0
    ∧ (getNextStartTime 1 0 / 1000 % 10 = 1
       ∨ getNextStartTime 1 0 / 1000 % 10 = (1 + 5) % 10)
    ∧ (∀ m, (0 / 1000 + 1) * 1000 ≤ m →
        (m / 1000 % 10 = 1 ∨ m / 1000 % 10 = (1 + 5) % 10) →
        getNextStartTime 1 0 ≤ m) :=
  getNextStartTime_least 1 0 (by decide)

/-- `BlinkConfig` (code.ts lines 2-7): a well-formed configuration as the
initiator builds it. `timeOffset` is an `Int` because it travels through
JavaScript number arithmetic in the codec. -/
structure BlinkConfig where
  color1 : String
  color2 : String
  pattern : String
  timeOffset : Int
deriving DecidableEq, Repr

/-- The runtime shape of what `decodeUrl` actually returns (code.ts lines
471-476): `COLORS[i]` / `PATTERNS[i]` are `undefined` (here `none`) when the
index is `NaN` or out of bounds, and `timeOffset` is `NaN` (here `none`) when
`parseInt` failed. -/
structure DecodedConfig where
  color1 : Option String
  color2 : Option String
  pattern : Option String
  timeOffset : Option Int
deriving DecidableEq, Repr

/-- JavaScript whitespace skipped by `parseInt` (the common cases). -/
def isJsSpace (c : Char) : Bool :=
  c = ' ' || c = '\t' || c = '\n' || c = '\r'

/-- Value of a decimal digit character, if it is one. -/
def decDigit (c : Char) : Option Nat :=
  if '0' ≤ c ∧ c ≤ '9' then some (c.toNat - 48) else none

/-- Value of a hexadecimal digit character, if it is one. -/
def hexDigit (c : Char) : Option Nat :=
  if '0' ≤ c ∧ c ≤ '9' then some (c.toNat - 48)
  else if 'a' ≤ c ∧ c ≤ 'f' then some (c.toNat - 87)
  else if 'A' ≤ c ∧ c ≤ 'F' then some (c.toNat - 55)
  else none

/-- Accumulate the longest run of decimal digits. -/
def decRun (acc : Nat) : List Char → Nat
  | [] => acc
  | c :: cs =>
      match decDigit c with
      | some v => decRun (10 * acc + v) cs
      | none => acc

/-- Accumulate the longest run of hexadecimal digits. -/
def hexRun (acc : Nat) : List Char → Nat
  | [] => acc
  | c :: cs =>
      match hexDigit c with
      | some v => hexRun (16 * acc + v) cs
      | none => acc

/-- Longest decimal-digit run at the front; `none` when there is none
(`parseInt` then yields `NaN`). -/
def decValue : List Char → Option Nat
  | [] => none
  | c :: cs =>
      match decDigit c with
      | some v => some (decRun v cs)
      | none => none

/-- Longest hexadecimal-digit run at the front; `none` when there is none. -/
def hexValue : List Char → Option Nat
  | [] => none
  | c :: cs =>
      match hexDigit c with
      | some v => some (hexRun v cs)
      | none => none

/-- Unsigned part of `parseInt` with unspecified radix: a `0x`/`0X` leader
switches to hexadecimal, otherwise the decimal digit run is taken. -/
def parseUnsigned : List Char → Option Nat
  | '0' :: c :: cs =>
      if c = 'x' || c = 'X' then hexValue cs
      else decValue ('0' :: c :: cs)
  | cs => decValue cs

/-- JavaScript `parseInt(s)` (radix unspecified), as used by `decodeUrl`
(code.ts lines 458-461): skip leading whitespace, take an optional sign,
then the longest digit run; `none` models the `NaN` result. Trailing
characters are ignored, exactly as in JavaScript. -/
def parseIntJS (s : String) : Option Int :=
  match s.toList.dropWhile isJsSpace with
  | '-' :: cs => (parseUnsigned cs).map (fun n => -(Int.ofNat n))
  | '+' :: cs => (parseUnsigned cs).map Int.ofNat
  | cs => (parseUnsigned cs).map Int.ofNat

/-- `URLSearchParams.has k` over the parameter list of the query string. -/
def hasParam (params : List (String × String)) (k : String) : Bool :=
  params.any (fun p => p.1 == k)

/-- `URLSearchParams.get k`: the first value bound to `k`, or JavaScript
`null` (`none`). -/
def jsGet (params : List (String × String)) (k : String) : Option String :=
  (params.find? (fun p => p.1 == k)).map (fun p => p.2)

/-- `parseInt` applied to a possibly-`null` parameter value; `parseInt(null)`
is `NaN`, so `none` propagates. -/
def parseIntNullable (v : Option String) : Option Int :=
  match v with
  | none => none
  | some s => parseIntJS s

/-- JavaScript `a < b` for a possibly-`NaN` left operand: every comparison
with `NaN` is false. -/
def jsLt (a : Option Int) (b : Int) : Bool :=
  match a with
  | none => false
  | some x => decide (x < b)

/-- JavaScript `a >= b` for a possibly-`NaN` left operand. -/
def jsGe (a : Option Int) (b : Int) : Bool :=
  match a with
  | none => false
  | some x => decide (b ≤ x)

/-- JavaScript `a > b` for a possibly-`NaN` left operand. -/
def jsGt (a : Option Int) (b : Int) : Bool :=
  match a with
  | none => false
  | some x => decide (b < x)

/-- JavaScript array indexing `l[i]` with a possibly-`NaN` number index:
`undefined` (`none`) for `NaN`, negative, or out-of-bounds indices. -/
def listGetJS (l : List String) (i : Option Int) : Option String :=
  match i with
  | none => none
  | some n => if 0 ≤ n then l.get? n.toNat else none

/-- `decodeUrl` (code.ts lines 452-477), with the query string's parameter
list injected. Mirrors the source exactly: require the four keys, `parseInt`
each value, reject on the four range tests (false for `NaN` operands, as in
JavaScript), then index the tables. -/
def decodeUrl (params : List (String × String)) : Option DecodedConfig :=
  if hasParam params "c1" && hasParam params "c2"
      && hasParam params "p" && hasParam params "t" then
    let color1Index := parseIntNullable (jsGet params "c1")
    let color2Index := parseIntNullable (jsGet params "c2")
    let patternIndex := parseIntNullable (jsGet params "p")
    let timeOffset := parseIntNullable (jsGet params "t")
    if jsLt color1Index 0 || jsGe color1Index (Int.ofNat COLORS.length)
        || jsLt color2Index 0 || jsGe color2Index (Int.ofNat COLORS.length)
        || jsLt patternIndex 0 || jsGe patternIndex (Int.ofNat PATTERNS.length)
        || jsLt timeOffset 0 || jsGt timeOffset 9 then
      none
    else
      some ⟨listGetJS COLORS color1Index, listGetJS COLORS color2Index,
            listGetJS PATTERNS patternIndex, timeOffset⟩
  else
    none

/-- `Array.prototype.indexOf` on a list of strings: first index, `-1` when
absent. -/
def indexOfAux (x : String) : List String → Nat → Int
  | [], _ => -1
  | y :: ys, i => if y == x then Int.ofNat i else indexOfAux x ys (i + 1)

/-- `COLORS.indexOf` / `PATTERNS.indexOf` (code.ts lines 435-437). -/
def indexOfJS (l : List String) (x : String) : Int :=
  indexOfAux x l 0

/-- The query parameters written by `generateShareUrl` (code.ts lines
431-442); the `origin`/`pathname` portion of the produced URL is browser
state and carries no configuration. -/
def shareParams (cfg : BlinkConfig) : List (String × String) :=
  [("c1", toString (indexOfJS COLORS cfg.color1)),
   ("c2", toString (indexOfJS COLORS cfg.color2)),
   ("p", toString (indexOfJS PATTERNS cfg.pattern)),
   ("t", toString cfg.timeOffset)]

/-- `ColorPair` (code.ts lines 9-12). -/
structure ColorPair where
  color1 : String
  color2 : String
deriving DecidableEq, Repr

/-- `getRandomColors` (code.ts lines 258-263) with the two `Math.random`
draws injected as the chosen indices: `r1` is `floor(random * COLORS.length)`
and `r2` is `floor(random * remaining.length)`. -/
def getRandomColors (r1 r2 : Nat) : ColorPair :=
  let color1 := COLORS.getD r1 ""
  let remaining := COLORS.filter (fun c => c != color1)
  let color2 := remaining.getD r2 ""
  ⟨color1, color2⟩

/-- Round-trip facts for one color component: its `indexOf` index prints and
re-parses to itself, passes both range tests, and indexes back to the color. -/
lemma color_roundtrip (x : String) (hx : x ∈ COLORS) :
    parseIntJS (toString (indexOfJS COLORS x)) = some (indexOfJS COLORS x)
    ∧ jsLt (some (indexOfJS COLORS x)) 0 = false
    ∧ jsGe (some (indexOfJS COLORS x)) (Int.ofNat COLORS.length) = false
    ∧ listGetJS COLORS (some (indexOfJS COLORS x)) = some x := by
  fin_cases hx <;> exact ⟨by decide, by decide, by decide, by decide⟩

/-- Round-trip facts for the pattern component. -/
lemma pattern_roundtrip (x : String) (hx : x ∈ PATTERNS) :
    parseIntJS (toString (indexOfJS PATTERNS x)) = some (indexOfJS PATTERNS x)
    ∧ jsLt (some (indexOfJS PATTERNS x)) 0 = false
    ∧ jsGe (some (indexOfJS PATTERNS x)) (Int.ofNat PATTERNS.length) = false
    ∧ listGetJS PATTERNS (some (indexOfJS PATTERNS x)) = some x := by
  fin_cases hx <;> exact ⟨by decide, by decide, by decide, by decide⟩

/-- Round-trip facts for the time-offset component. -/
lemma timeOffset_roundtrip (t : Int) (h0 : 0 ≤ t) (h9 : t ≤ 9) :
    parseIntJS (toString t) = some t
    ∧ jsLt (some t) 0 = false
    ∧ jsGt (some t) 9 = false := by
  interval_cases t <;> exact ⟨by decide, by decide, by decide⟩

/-- C3: decoding the query parameters produced by `generateShareUrl` for any
valid configuration (both colors in the 6-entry table and distinct, pattern
in the 10-entry table, time offset in `0..9`) returns exactly that
configuration, field by field. -/
theorem decode_shareParams_roundtrip (cfg : BlinkConfig)
    (h1 : cfg.color1 ∈ COLORS) (h2 : cfg.color2 ∈ COLORS)
    (hne : cfg.color1 ≠ cfg.color2) (h3 : cfg.pattern ∈ PATTERNS)
    (h4 : 0 ≤ cfg.timeOffset) (h5 : cfg.timeOffset ≤ 9) :
    decodeUrl (shareParams cfg)
      = some ⟨some cfg.color1, some cfg.color2, some cfg.pattern,
              some cfg.timeOffset⟩ := by
  obtain ⟨hp1, hl1, hg1, hget1⟩ := color_roundtrip cfg.color1 h1
  obtain ⟨hp2, hl2, hg2, hget2⟩ := color_roundtrip cfg.color2 h2
  obtain ⟨hp3, hl3, hg3, hget3⟩ := pattern_roundtrip cfg.pattern h3
  obtain ⟨hp4, hl4, hg4⟩ := timeOffset_roundtrip cfg.timeOffset h4 h5
  have hk : (hasParam (shareParams cfg) "c1" && hasParam (shareParams cfg) "c2"
      && hasParam (shareParams cfg) "p" && hasParam (shareParams cfg) "t") = true := rfl
  have e1 : parseIntNullable (jsGet (shareParams cfg) "c1")
      = some (indexOfJS COLORS cfg.color1) := hp1
  have e2 : parseIntNullable (jsGet (shareParams cfg) "c2")
      = some (indexOfJS COLORS cfg.color2) := hp2
  have e3 : parseIntNullable (jsGet (shareParams cfg) "p")
      = some (indexOfJS PATTERNS cfg.pattern) := hp3
  have e4 : parseIntNullable (jsGet (shareParams cfg) "t")
      = some cfg.timeOffset := hp4
  unfold decodeUrl
  rw [hk]
  simp only [if_true, e1, e2, e3, e4, hl1, hg1, hl2, hg2, hl3, hg3, hl4, hg4,
    hget1, hget2, hget3, Bool.or_false, Bool.false_or, Bool.or_self,
    Bool.false_eq_true, if_false]

/-- Witness for C3 at a concrete valid configuration. -/
theorem decode_shareParams_roundtrip_w :
    decodeUrl (shareParams ⟨"--color-accent", "--color-info", "-.-.-.-.", 4⟩)
      = some ⟨some "--color-accent", some "--color-info", some "-.-.-.-.",
              some 4⟩ :=
  decode_shareParams_roundtrip ⟨"--color-accent", "--color-info", "-.-.-.-.", 4⟩
    (by decide) (by decide) (by decide) (by decide) (by decide) (by decide)

/-- C4 counterexample: `c1` is present but not parseable as an integer
(`parseInt` gives `NaN`), yet `decodeUrl` does not return `null` — the `NaN`
index slips through every range comparison. -/
theorem decodeUrl_nan_not_rejected :
    decodeUrl [("c1", "x"), ("c2", "0"), ("p", "0"), ("t", "0")] ≠ none := by
  decide

/-- C4 (amended): `decodeUrl` returns `null` whenever one of the four keys is
missing, and whenever a parameter parses to an out-of-range integer (`c1`/`c2`
outside `[0,6)`, `p` outside `[0,10)`, `t` outside `0..9`). A parameter that
is present but unparseable is *not* rejected: its `NaN` fails every range
comparison, and with the rest in range `decodeUrl` returns a config carrying
`undefined` in that field (the embedding is a total function, so no input
throws). -/
theorem decodeUrl_validation (params : List (String × String)) :
    ((hasParam params "c1" && hasParam params "c2"
        && hasParam params "p" && hasParam params "t") = false →
      decodeUrl params = none)
    ∧ (∀ i : Int, parseIntNullable (jsGet params "c1") = some i →
        (i < 0 ∨ 6 ≤ i) → decodeUrl params = none)
    ∧ (∀ i : Int, parseIntNullable (jsGet params "c2") = some i →
        (i < 0 ∨ 6 ≤ i) → decodeUrl params = none)
    ∧ (∀ i : Int, parseIntNullable (jsGet params "p") = some i →
        (i < 0 ∨ 10 ≤ i) → decodeUrl params = none)
    ∧ (∀ i : Int, parseIntNullable (jsGet params "t") = some i →
        (i < 0 ∨ 9 < i) → decodeUrl params = none)
    ∧ decodeUrl [("c1", "x"), ("c2", "0"), ("p", "0"), ("t", "0")]
        = some ⟨none, some "--color-secondary", some "..-..-.-..", some 0⟩ := by
  by_cases hall : (hasParam params "c1" && hasParam params "c2"
      && hasParam params "p" && hasParam params "t") = true
  · refine ⟨fun h => by rw [h] at hall; exact absurd hall (by simp), ?_, ?_, ?_, ?_, by decide⟩
    all_goals
      intro i hp hr
      unfold decodeUrl
      rw [hall]
      simp only [if_true, hp]
      rcases hr with h | h
      · simp [jsLt, jsGe, jsGt, h]
      · simp [jsLt, jsGe, jsGt, COLORS, PATTERNS, h]
  · have hfalse : (hasParam params "c1" && hasParam params "c2"
        && hasParam params "p" && hasParam params "t") = false := by
      revert hall
      cases hasParam params "c1" && hasParam params "c2"
        && hasParam params "p" && hasParam params "t" <;> simp
    refine ⟨fun _ => ?_, ?_, ?_, ?_, ?_, by decide⟩
    all_goals
      first
      | (unfold decodeUrl; rw [hfalse]; rfl)
      | (intro i hp hr; unfold decodeUrl; rw [hfalse]; rfl)

/-- Witness for C4 (amended): a query with `c1` missing decodes to `null`. -/
theorem decodeUrl_validation_w :
    decodeUrl [("c2", "0"), ("p", "0"), ("t", "0")] = none :=
  (decodeUrl_validation [("c2", "0"), ("p", "0"), ("t", "0")]).1 (by decide)

/-- C10: `decodeUrl` performs no distinctness check on the two colors — the
in-range query `c1=0&c2=0&p=0&t=0` decodes to a configuration whose two
colors are the same table entry — while `getRandomColors` (which filters the
first color out of the pool before drawing the second) can never produce such
a pair, whatever the two random draws are. -/
theorem decode_allows_equal_colors :
    (decodeUrl [("c1", "0"), ("c2", "0"), ("p", "0"), ("t", "0")]
      = some ⟨some "--color-secondary", some "--color-secondary",
              some "..-..-.-..", some 0⟩)
    ∧ (∀ r1 < 6, ∀ r2 < 5,
        (getRandomColors r1 r2).color1 ≠ (getRandomColors r1 r2).color2) := by
  exact ⟨by decide, by decide⟩

/-- Witness for C10: equal colors decoded, and a concrete random draw where
the generated colors differ. -/
theorem decode_allows_equal_colors_w :
    (getRandomColors 0 1).color1 ≠ (getRandomColors 0 1).color2 :=
  (decode_allows_equal_colors).2 0 (by decide) 1 (by decide)

/-- Phase duration of one pattern character (code.ts line 408):
`'.'` maps to `Duration.DOT`, `'-'` to `Duration.DASH`, anything else to 0. -/
def charDuration (c : Char) : Nat :=
  if c = '.' then Duration_DOT else if c = '-' then Duration_DASH else 0

/-- The color toggle after each character (code.ts line 411). -/
def toggleColor (color1Value color2Value cur : String) : String :=
  if cur = color1Value then color2Value else color1Value

/-- The visible-background segments produced by one uninterrupted run of the
`for` loop of `runPattern` (code.ts lines 389-412), started at instant `t`
with current color `cur`: each character paints the current color for its
duration, then toggles. Returns `(color, start, end)` triples. -/
def patternTimeline (color1Value color2Value : String) :
    List Char → String → Nat → List (String × Nat × Nat)
  | [], _, _ => []
  | ch :: rest, cur, t =>
      (cur, t, t + charDuration ch) ::
        patternTimeline color1Value color2Value rest
          (toggleColor color1Value color2Value cur) (t + charDuration ch)

/-- The instant at which the loop finishes and the background is reset to the
default color (code.ts line 415). -/
def patternEndTime : List Char → Nat → Nat
  | [], t => t
  | ch :: rest, t => patternEndTime rest (t + charDuration ch)

/-- The visible background at `time` during an uninterrupted run started at
`start`: the color of the segment containing `time`, or the neutral default
outside every segment (before the start and from the reset onwards). -/
def backgroundAt (color1Value color2Value defaultColor : String)
    (pat : List Char) (start time : Nat) : String :=
  match (patternTimeline color1Value color2Value pat color1Value start).find?
      (fun seg => seg.2.1 ≤ time && time < seg.2.2) with
  | some seg => seg.1
  | none => defaultColor

/-- C5 counterexample: for pattern `"..-"` started at `T = 0` with colors
`"A"`, `"B"`, the claim places color2 on all of `[250, 1000)` and the reset
at `1000`; but at time `600` the code shows color1 (`"A"`, the dash phase
runs `[500, 1250)`), and the reset happens at `1250`. -/
theorem dotDotDash_claim_cex :
    backgroundAt "A" "B" "N" (String.toList "..-") 0 600 ≠ "B"
    ∧ patternEndTime (String.toList "..-") 0 ≠ 1000 := by
  exact ⟨by decide, by decide⟩

/-- C5 (amended): for pattern `"..-"` started uninterrupted at `T`, the
background is color1 on `[T, T+250)` (first dot), color2 on `[T+250, T+500)`
(second dot), color1 on `[T+500, T+1250)` (the dash, 750 ms), and the
background is reset to the neutral default at `T + 1250`; the toggle after
the dash still occurs but its color is never painted. -/
theorem dotDotDash_timeline (c1 c2 : String) (T : Nat) :
    patternTimeline c1 c2 (String.toList "..-") c1 T
      = [(c1, T, T + 250), (c2, T + 250, T + 500), (c1, T + 500, T + 1250)]
    ∧ patternEndTime (String.toList "..-") T = T + 1250 := by
  have hl : String.toList "..-" = ['.', '.', '-'] := rfl
  rw [hl]
  by_cases h : c2 = c1 <;>
    simp [patternTimeline, patternEndTime, charDuration, toggleColor,
      Duration_DOT, Duration_DASH, h]

/-- C6 counterexample: entry 8 of `PATTERNS` is `"-----."`, which has only 6
symbols, not the claimed 7-10. -/
theorem patterns_length_cex :
    PATTERNS.getD 8 "" = "-----."
    ∧ (PATTERNS.getD 8 "").length = 6
    ∧ ¬ (7 ≤ (PATTERNS.getD 8 "").length) := by
  exact ⟨by decide, by decide, by decide⟩

/-- C6 (amended): `PATTERNS` has exactly 10 entries (indexable 0..9), each a
string over the alphabet `{'.', '-'}` of length between 6 and 10 symbols
inclusive (entries 8 and 9 have 6 symbols; the rest have 8 or 10). -/
theorem patterns_shape :
    PATTERNS.length = 10
    ∧ PATTERNS.all (fun p =>
        p.toList.all (fun ch => ch = '.' || ch = '-')
          && decide (6 ≤ p.length) && decide (p.length ≤ 10)) = true := by
  exact ⟨by decide, by decide⟩

/-- `State` (code.ts lines 15-19). -/
inductive State where
  | WELCOME
  | COUNTDOWN
  | RUNNING
deriving DecidableEq, Repr

/-- The mutable session state touched by `updateUI` (code.ts lines 56-64 for
the module globals, lines 93-132 for the DOM pieces). The `*Hidden` flags
model the `hidden` CSS class on the corresponding elements, and
`bodyBackground` models `document.body.style.backgroundColor`. The initial
values of the DOM-derived fields come from the page markup, which is not part
of `code.ts`; the pause invariant does not depend on them. -/
structure UIState where
  currentState : State
  shouldPauseBackground : Bool
  isBackgroundFlashing : Bool
  countdownIntervalId : Option Nat
  playHidden : Bool
  cancelHidden : Bool
  countdownTextHidden : Bool
  countdownTextContent : String
  instructionsHidden : Bool
  bodyBackground : String
deriving DecidableEq, Repr

/-- The module-global initial state (code.ts lines 56-64): `WELCOME`, paused,
not flashing, no countdown poller. -/
def initialUIState : UIState :=
  { currentState := State.WELCOME
    shouldPauseBackground := true
    isBackgroundFlashing := false
    countdownIntervalId := none
    playHidden := false
    cancelHidden := true
    countdownTextHidden := false
    countdownTextContent := ""
    instructionsHidden := false
    bodyBackground := "" }

/-- `updateUI` (code.ts lines 93-132), with the computed default color
injected: cancel any live countdown poller, then refresh the presentation
and the pause flag according to the current state. -/
def updateUI (defaultColor : String) (st : UIState) : UIState :=
  let st := { st with countdownIntervalId := none }
  match st.currentState with
  | State.WELCOME =>
      { st with playHidden := false
                cancelHidden := true
                countdownTextContent := "&nbsp;"
                countdownTextHidden := false
                instructionsHidden := false
                shouldPauseBackground := true
                isBackgroundFlashing := false
                bodyBackground := defaultColor }
  | State.COUNTDOWN =>
      { st with playHidden := true
                cancelHidden := false
                countdownTextHidden := false
                countdownTextContent := "Starting in 3"
                instructionsHidden := true
                shouldPauseBackground := false }
  | State.RUNNING =>
      { st with playHidden := true
                cancelHidden := false
                instructionsHidden := true
                countdownTextHidden := true
                shouldPauseBackground := false }

/-- `setState` (code.ts lines 135-140): store the new state, then refresh. -/
def setState (defaultColor : String) (newState : State) (st : UIState) : UIState :=
  updateUI defaultColor { st with currentState := newState }

/-- C7: the pause flag tracks the phase exactly — in the initial state and
after every `updateUI` or `setState` call, `shouldPauseBackground` is true if
and only if `currentState` is `WELCOME` (the `WELCOME` arm alone sets it
true; the `COUNTDOWN` and `RUNNING` arms set it false). -/
theorem pause_iff_welcome :
    (initialUIState.shouldPauseBackground = true
      ↔ initialUIState.currentState = State.WELCOME)
    ∧ (∀ defaultColor st,
        (updateUI defaultColor st).shouldPauseBackground = true
          ↔ (updateUI defaultColor st).currentState = State.WELCOME)
    ∧ (∀ defaultColor newState st,
        (setState defaultColor newState st).shouldPauseBackground = true
          ↔ (setState defaultColor newState st).currentState = State.WELCOME) := by
  refine ⟨by decide, ?_, ?_⟩
  · intro defaultColor st
    cases h : st.currentState <;> simp [updateUI, h]
  · intro defaultColor newState st
    cases newState <;> simp [setState, updateUI]

/-- The ambient state an animation loop observes when it resumes: the live
generation counter `currentAnimationId` (code.ts line 63) and the pause flag
`shouldPauseBackground` (code.ts line 61). Both can change while the loop is
suspended in an `await`. -/
structure AnimEnv where
  currentAnimationId : Nat
  shouldPauseBackground : Bool
deriving DecidableEq, Repr

/-- The writes to shared visual state that `runPattern` can perform:
`document.body.style.backgroundColor`, the `isBackgroundFlashing` flag, the
phone-holder color, and the `setState(State.RUNNING)` transition. -/
inductive VisualWrite where
  | setBackground (color : String)
  | setFlashing (active : Bool)
  | setPhoneColor (color : String)
  | enterRunning
deriving DecidableEq, Repr

/-- The resumption points of `runPattern` (code.ts lines 357-426). `entry` is
the top-of-function check (line 359), reached on every (re)invocation,
including after each 100 ms pause poll; `afterStartWait` is the re-check
after the wait for the start time (line 375); `inLoop i cur` is the check at
the head of loop iteration `i` with current color `cur` (line 391), reached
after the previous character's duration wait; `halted` is a returned
invocation. The step from `afterStartWait` into iteration 0 is synchronous
in the source (no `await` separates them); it is modelled as a position for
uniformity, which only lets the environment change at more points. -/
inductive RunPos where
  | entry
  | afterStartWait
  | inLoop (i : Nat) (cur : String)
  | halted
deriving DecidableEq, Repr

/-- One resumption of `runPattern` (code.ts lines 357-426) for the invocation
that captured generation `animationId`, pattern `pattern`, resolved colors
`color1Value`/`color2Value` and default color `defaultColor`: given the
ambient state observed on resumption, it returns the writes performed before
the next suspension (or return) and the next resumption point. -/
def runPatternStep (pattern : List Char)
    (color1Value color2Value defaultColor : String) (animationId : Nat)
    (pos : RunPos) (env : AnimEnv) : List VisualWrite × RunPos :=
  match pos with
  | RunPos.entry =>
      if animationId ≠ env.currentAnimationId then ([], RunPos.halted)
      else if env.shouldPauseBackground then ([], RunPos.entry)
      else ([], RunPos.afterStartWait)
  | RunPos.afterStartWait =>
      if animationId ≠ env.currentAnimationId ∨ env.shouldPauseBackground then
        if env.shouldPauseBackground then ([], RunPos.entry)
        else ([], RunPos.halted)
      else
        ([VisualWrite.setFlashing true, VisualWrite.setPhoneColor "white",
          VisualWrite.enterRunning],
         RunPos.inLoop 0 color1Value)
  | RunPos.inLoop i cur =>
      if i < pattern.length then
        if animationId ≠ env.currentAnimationId then
          ([VisualWrite.setBackground defaultColor, VisualWrite.setFlashing false],
           RunPos.halted)
        else if env.shouldPauseBackground then
          ([VisualWrite.setBackground defaultColor, VisualWrite.setFlashing false],
           RunPos.entry)
        else
          ([VisualWrite.setBackground cur],
           RunPos.inLoop (i + 1) (toggleColor color1Value color2Value cur))
      else
        ([VisualWrite.setBackground defaultColor, VisualWrite.setFlashing false],
         RunPos.entry)
  | RunPos.halted => ([], RunPos.halted)

/-- C8 counterexample: a loop of generation 1, resumed at the head of pattern
iteration 1 (i.e. after sleeping through the first character), observes that
the live generation is 2 — and still writes the default color to the visible
background (and clears the flashing flag) before returning, contradicting
"never again mutates shared visual state" after observing staleness. -/
theorem stale_midpattern_writes :
    (runPatternStep (String.toList "..-") "A" "B" "N" 1
        (RunPos.inLoop 1 "B") ⟨2, false⟩).1
      = [VisualWrite.setBackground "N", VisualWrite.setFlashing false]
    ∧ VisualWrite.setBackground "N"
        ∈ (runPatternStep (String.toList "..-") "A" "B" "N" 1
            (RunPos.inLoop 1 "B") ⟨2, false⟩).1 := by
  exact ⟨by decide, by decide⟩

/-- C8 (amended): once the captured `animationId` differs from the live
`currentAnimationId`, a resumption of the loop performs either no visual
writes at all or exactly the one neutral cleanup (background reset to the
default color and flashing flag cleared — the mid-pattern staleness branch
does perform this single reset); it never paints a pattern color again, it
moves only to `halted` or to the `entry` check — where, still stale, it halts
with no writes — and a halted invocation never writes or moves again. -/
theorem stale_loop_quiescent (pattern : List Char)
    (color1Value color2Value defaultColor : String) (animationId : Nat)
    (pos : RunPos) (env : AnimEnv)
    (hstale : animationId ≠ env.currentAnimationId) :
    ((runPatternStep pattern color1Value color2Value defaultColor animationId
        pos env).1 = []
      ∨ (runPatternStep pattern color1Value color2Value defaultColor animationId
          pos env).1
        = [VisualWrite.setBackground defaultColor, VisualWrite.setFlashing false])
    ∧ ((runPatternStep pattern color1Value color2Value defaultColor animationId
          pos env).2 = RunPos.halted
        ∨ (runPatternStep pattern color1Value color2Value defaultColor animationId
            pos env).2 = RunPos.entry)
    ∧ runPatternStep pattern color1Value color2Value defaultColor animationId
        RunPos.entry env = ([], RunPos.halted)
    ∧ (∀ e : AnimEnv,
        runPatternStep pattern color1Value color2Value defaultColor animationId
          RunPos.halted e = ([], RunPos.halted)) := by
  refine ⟨?_, ?_, by simp [runPatternStep, hstale], fun e => rfl⟩ <;>
    cases pos <;>
      simp [runPatternStep, hstale] <;>
      split <;> simp

/-- Witness for C8 (amended) at a concrete stale resumption. -/
theorem stale_loop_quiescent_w :
    ((runPatternStep (String.toList "..-") "A" "B" "N" 1
        (RunPos.inLoop 1 "B") ⟨2, false⟩).1 = []
      ∨ (runPatternStep (String.toList "..-") "A" "B" "N" 1
          (RunPos.inLoop 1 "B") ⟨2, false⟩).1
        = [VisualWrite.setBackground "N", VisualWrite.setFlashing false])
    ∧ ((runPatternStep (String.toList "..-") "A" "B" "N" 1
          (RunPos.inLoop 1 "B") ⟨2, false⟩).2 = RunPos.halted
        ∨ (runPatternStep (String.toList "..-") "A" "B" "N" 1
            (RunPos.inLoop 1 "B") ⟨2, false⟩).2 = RunPos.entry)
    ∧ runPatternStep (String.toList "..-") "A" "B" "N" 1
        RunPos.entry ⟨2, false⟩ = ([], RunPos.halted)
    ∧ (∀ e : AnimEnv,
        runPatternStep (String.toList "..-") "A" "B" "N" 1
          RunPos.halted e = ([], RunPos.halted)) :=
  stale_loop_quiescent (String.toList "..-") "A" "B" "N" 1
    (RunPos.inLoop 1 "B") ⟨2, false⟩ (by decide)
